import Mathlib

/-!
# Verification of the QuizWebSocket room server (src/index.js)

A shallow embedding of the room-lifecycle / session state machine of the
single-file WebSocket quiz server.  Connections are identified by natural
numbers (the `ws` handle).  JavaScript numbers are modelled as integers
extended with `NaN` (see `JSNum`); the only numeric operations the code
performs on them (`Math.floor`, `Math.max(1, ·)`, decrement by one,
comparison with zero, truthiness) get their IEEE-754 semantics.  Outbound
`safeSend` calls are modelled as a list of `(connection, message)` emissions;
delivery (the `readyState` check) is a transport concern outside the model.
`setInterval` handles are modelled by the presence of the `timer` field:
in the source an interval is scheduled exactly while `room.timer` is set
(every site that clears one also clears the other), so a `tick` event acts
on the room named by the interval's captured `roomCode`.
-/

set_option autoImplicit false

namespace QuizWS

/-- JavaScript numbers, as used by this program: `NaN` or a finite value.
Every finite number this server stores or tests is integral: `Math.floor`
at the single numeric entry point (`timerSeconds`) makes the duration
integral before it is stored and then only decrements by one reach it,
and scores are opaque (stored and echoed, never computed with).  So the
finite carrier is `ℤ`; on it `Math.floor` is the identity. -/
inductive JSNum where
  | nan : JSNum
  | num : ℤ → JSNum
deriving DecidableEq

/-- Semantics of `Math.floor`: the identity on the integral carrier, `NaN` on `NaN`. -/
def jsFloor : JSNum → JSNum
  | .nan => .nan
  | .num q => .num q

/-- Semantics of `Math.max(1, x)`: `NaN` if `x` is `NaN`, else the larger of `1` and `x`. -/
def jsMax1 : JSNum → JSNum
  | .nan => .nan
  | .num q => .num (if q ≤ 1 then 1 else q)

/-- Semantics of `x - 1` (the `timeRemaining--` decrement); `NaN` stays `NaN`. -/
def jsSub1 : JSNum → JSNum
  | .nan => .nan
  | .num q => .num (q - 1)

/-- The expiry test `x <= 0`; every comparison with `NaN` is false. -/
def jsLe0 : JSNum → Bool
  | .nan => false
  | .num q => decide (q ≤ 0)

/-- JavaScript truthiness of a number: `0` and `NaN` are falsy. -/
def jsTruthy : JSNum → Bool
  | .nan => false
  | .num q => decide (q ≠ 0)

/-- Opaque JavaScript values (quiz payloads, relayed message bodies). -/
inductive JSVal where
  | null : JSVal
  | undef : JSVal
  | num : JSNum → JSVal
  | str : String → JSVal
deriving DecidableEq

/-- JavaScript truthiness of a value. -/
def jsvTruthy : JSVal → Bool
  | .null => false
  | .undef => false
  | .num n => jsTruthy n
  | .str s => decide (s ≠ "")

/-- The `v || null` idiom used for the quiz payload. -/
def jsvOrNull (v : JSVal) : JSVal :=
  if jsvTruthy v then v else .null

/-- Truthiness of an optional string field of a message body
(`undefined` and the empty string are falsy). -/
def truthyStr : Option String → Bool
  | none => false
  | some s => decide (s ≠ "")

/-- A participant record `{ ws, email }` as stored in `room.owner` and
`room.clients`. -/
structure Participant where
  ws : Nat
  email : String
deriving DecidableEq

/-- The `room.timer` record: the countdown value; the `interval` handle is modelled by
the presence of this record (see the file comment). -/
structure SessionTimer where
  timeRemaining : JSNum
deriving DecidableEq

/-- The room lifecycle states. -/
inductive RoomState where
  | waiting : RoomState
  | started : RoomState
  | ended : RoomState
deriving DecidableEq

/-- A room record.  `finished` is `none` until the first `finishQuiz`
creates the score store (`if (!room.finished) room.finished = {}`). -/
structure Room where
  owner : Participant
  clients : List Participant
  quiz : JSVal
  state : RoomState
  timer : Option SessionTimer
  finished : Option (List (String × JSNum))
deriving DecidableEq

/-- The per-connection tags `ws.room` and `ws.userEmail`. -/
structure ConnTags where
  room : Option String
  userEmail : Option String
deriving DecidableEq

/-- The whole server state: the `rooms` object (an association list from
room code to room) and the tags of every connection. -/
structure ServerState where
  rooms : List (String × Room)
  tags : Nat → ConnTags

/-- Lookup in the `rooms` object. -/
def lookupRoom : List (String × Room) → String → Option Room
  | [], _ => none
  | (c, r) :: rest, code => if c = code then some r else lookupRoom rest code

/-- Assignment `rooms[code] = room`: replace the binding if present, else add it. -/
def setRoom : List (String × Room) → String → Room → List (String × Room)
  | [], code, room => [(code, room)]
  | (c, r) :: rest, code, room =>
      if c = code then (code, room) :: rest else (c, r) :: setRoom rest code room

/-- Deletion `delete rooms[code]`. -/
def removeRoom : List (String × Room) → String → List (String × Room)
  | [], _ => []
  | (c, r) :: rest, code =>
      if c = code then removeRoom rest code else (c, r) :: removeRoom rest code

/-- Pointwise update of the connection tags. -/
def setTags (f : Nat → ConnTags) (w : Nat) (t : ConnTags) : Nat → ConnTags :=
  fun x => if x = w then t else f x

/-- Assignment `room.finished[userEmail] = score`: update or insert. -/
def setScore : List (String × JSNum) → String → JSNum → List (String × JSNum)
  | [], em, sc => [(em, sc)]
  | (e, v) :: rest, em, sc =>
      if e = em then (em, sc) :: rest else (e, v) :: setScore rest em sc

/-- Lookup in the score store. -/
def lookupScore : List (String × JSNum) → String → Option JSNum
  | [], _ => none
  | (e, v) :: rest, em => if e = em then some v else lookupScore rest em

/-- Outbound notifications.  Constant human-readable format strings of the
source are elided; every data field the source sends is kept.  `error`
carries the exact error string of the source. -/
inductive Msg where
  | error : String → Msg
  | created : String → JSVal → Msg
  | joined : JSVal → Msg
  | userJoined : String → Option String → Msg
  | sessionStarted : Bool → JSVal → JSNum → Msg
  | timerTick : JSNum → Msg
  | sessionEnded : Msg
  | roomClosed : Msg
  | roomDeleted : Bool → Msg
  | userLeft : List Participant → Msg
  | leftRoom : Msg
  | reconnected : JSVal → String → RoomState → Option JSNum → Msg
  | userFinished : String → JSNum → JSNum → Msg
  | relayed : JSVal → Msg
deriving DecidableEq

/-- The function `leaveRoom(ws)` (index.js:59-91): detach `ws` from its current room.
If `ws` owns the room the room is deleted (its timer handle cleared) and
every client is notified and has its `room` tag cleared; otherwise `ws` is
filtered out of the roster.  In the dangling case (tagged room no longer
exists) only `ws.room` is cleared. -/
def leaveRoomFn (s : ServerState) (ws : Nat) : ServerState × List (Nat × Msg) :=
  match (s.tags ws).room with
  | none => (s, [])
  | some roomCode =>
    match lookupRoom s.rooms roomCode with
    | none =>
        ({ s with tags := setTags s.tags ws { room := none, userEmail := (s.tags ws).userEmail } }, [])
    | some room =>
        if room.owner.ws = ws then
          let outs := room.clients.map (fun c => (c.ws, Msg.roomClosed))
          let tags1 := room.clients.foldl
            (fun f c => setTags f c.ws { room := none, userEmail := (f c.ws).userEmail }) s.tags
          let tags2 := setTags tags1 ws { room := none, userEmail := none }
          ({ rooms := removeRoom s.rooms roomCode, tags := tags2 }, outs)
        else
          let room1 := { room with clients := room.clients.filter (fun c => decide (c.ws ≠ ws)) }
          ({ rooms := setRoom s.rooms roomCode room1,
             tags := setTags s.tags ws { room := none, userEmail := none } }, [])

/-- The room-code generation loop (index.js:123-126):
`Math.floor(1000 + Math.random() * 9000)` retried while the code is taken.
The stream of random draws is supplied as an oracle list; `none` models the
loop never finding a free code within the supplied draws (the source would
keep drawing). -/
def genRoomCode (occupied : List (String × Room)) : List Nat → Option String
  | [] => none
  | r :: rest =>
      let code := Nat.repr (1000 + r % 9000)
      if lookupRoom occupied code = none then some code else genRoomCode occupied rest

/-- The `create` branch (index.js:112-146).  Note `leaveRoom(ws)` runs
before the `userEmail` validation.  When the oracle yields no fresh code
(`genRoomCode = none`, a run on which the source loops forever) the model
stops after the leave with no further observable behaviour. -/
def createOp (s : ServerState) (ws : Nat) (userEmail : Option String) (quizData : JSVal)
    (rand : List Nat) : ServerState × List (Nat × Msg) :=
  let s1 := (leaveRoomFn s ws).1
  let outs1 := (leaveRoomFn s ws).2
  if truthyStr userEmail = false then
    (s1, outs1 ++ [(ws, Msg.error "userEmail required to create room")])
  else
    let em := userEmail.getD ""
    let s2 : ServerState :=
      { s1 with tags := setTags s1.tags ws { room := (s1.tags ws).room, userEmail := some em } }
    match genRoomCode s1.rooms rand with
    | none => (s2, outs1)
    | some code =>
        let s3 : ServerState :=
          { s2 with tags := setTags s2.tags ws { room := some code, userEmail := some em } }
        let room : Room :=
          { owner := ⟨ws, em⟩, clients := [], quiz := jsvOrNull quizData,
            state := .waiting, timer := none, finished := none }
        ({ s3 with rooms := setRoom s3.rooms code room },
         outs1 ++ [(ws, Msg.created code (jsvOrNull quizData))])

/-- The shared member insert/rebind of `join` (index.js:174-179) and
`reconnect` (index.js:301-306): rebind the first participant with this
email, or append a new one. -/
def rebindOrAppend (ws : Nat) (em : String) : List Participant → List Participant
  | [] => [⟨ws, em⟩]
  | c :: rest => if c.email = em then ⟨ws, em⟩ :: rest else c :: rebindOrAppend ws em rest

/-- The `join` branch (index.js:151-196).  `leaveRoom(ws)` runs before any
validation; a room in state `started` rejects the join. -/
def joinOp (s : ServerState) (ws : Nat) (roomCode userEmail username : Option String) :
    ServerState × List (Nat × Msg) :=
  let s1 := (leaveRoomFn s ws).1
  let outs1 := (leaveRoomFn s ws).2
  if (truthyStr roomCode && truthyStr userEmail) = false then
    (s1, outs1 ++ [(ws, Msg.error "roomCode and userEmail required to join")])
  else
    let rc := roomCode.getD ""
    let em := userEmail.getD ""
    match lookupRoom s1.rooms rc with
    | none => (s1, outs1 ++ [(ws, Msg.error "Room does not exist")])
    | some room =>
        if room.state = RoomState.started then
          (s1, outs1 ++ [(ws, Msg.error "Session already started, cannot join")])
        else
          let clients1 := rebindOrAppend ws em room.clients
          let room1 := { room with clients := clients1 }
          let s2 : ServerState :=
            { rooms := setRoom s1.rooms rc room1,
              tags := setTags s1.tags ws { room := some rc, userEmail := some em } }
          let others := (room1.owner :: clients1).filterMap
            (fun c => if c.ws = ws then none else some (c.ws, Msg.userJoined em username))
          (s2, outs1 ++ [(ws, Msg.joined room.quiz)] ++ others)

/-- The `timerSeconds` handling (index.js:215-217): a value of number type is
floored and clamped below by 1; anything else (including an omitted field)
falls back to 60. -/
def sessionDuration : Option JSNum → JSNum
  | some t => jsMax1 (jsFloor t)
  | none => JSNum.num 60

/-- The body of a successful `startSession` (index.js:219-260), as a
function of the already-computed duration: set the state to `started`,
broadcast `sessionStarted` (tagging each recipient with whether its email
is the owner's), replace any existing timer with a fresh one. -/
def startSessionWith (s : ServerState) (rc : String) (room : Room) (duration : JSNum) :
    ServerState × List (Nat × Msg) :=
  let room1 := { room with state := RoomState.started }
  let outs := (room1.owner :: room1.clients).map
    (fun c => (c.ws, Msg.sessionStarted (decide (c.email = room.owner.email)) room.quiz duration))
  let room2 := { room1 with timer := some { timeRemaining := duration } }
  ({ s with rooms := setRoom s.rooms rc room2 }, outs)

/-- The `startSession` branch (index.js:201-263).  Only the room's and the
owner's identity are checked; the room's state is not. -/
def startSessionOp (s : ServerState) (ws : Nat) (roomCode : Option String)
    (timerSeconds : Option JSNum) : ServerState × List (Nat × Msg) :=
  let rc := roomCode.getD "undefined"
  match lookupRoom s.rooms rc with
  | none => (s, [(ws, Msg.error "Room does not exist")])
  | some room =>
      if room.owner.ws ≠ ws then
        (s, [(ws, Msg.error "Only the owner can start the session")])
      else
        startSessionWith s rc room (sessionDuration timerSeconds)

/-- One firing of a room's interval callback (index.js:236-259): decrement,
broadcast `timerTick`, and on `timeRemaining <= 0` clear the timer, set the
state to `ended` and broadcast `sessionEnded`.  A tick for a deleted room is
a no-op; a room without a timer never has a scheduled interval (see the
file comment), so that case is also a no-op. -/
def roomTick (s : ServerState) (roomCode : String) : ServerState × List (Nat × Msg) :=
  match lookupRoom s.rooms roomCode with
  | none => (s, [])
  | some r =>
    match r.timer with
    | none => (s, [])
    | some tm =>
        let t1 := jsSub1 tm.timeRemaining
        let everyone := r.owner :: r.clients
        let tickOuts := everyone.map (fun p => (p.ws, Msg.timerTick t1))
        if jsLe0 t1 then
          ({ s with rooms := setRoom s.rooms roomCode { r with timer := none, state := RoomState.ended } },
           tickOuts ++ everyone.map (fun p => (p.ws, Msg.sessionEnded)))
        else
          ({ s with rooms := setRoom s.rooms roomCode { r with timer := some { timeRemaining := t1 } } },
           tickOuts)

/-- The expression `room.timer?.timeRemaining || null` (index.js:294,310): `null` when
there is no timer or the remaining value is falsy (`0` or `NaN`). -/
def timerOrNull : Option SessionTimer → Option JSNum
  | none => none
  | some tm => if jsTruthy tm.timeRemaining then some tm.timeRemaining else none

/-- The `reconnect` branch (index.js:268-315): rejected for absent or ended
rooms; the owner's email rebinds the owner, any other email rebinds or
appends a member. -/
def reconnectOp (s : ServerState) (ws : Nat) (roomCode userEmail : Option String) :
    ServerState × List (Nat × Msg) :=
  if (truthyStr roomCode && truthyStr userEmail) = false then
    (s, [(ws, Msg.error "roomCode and userEmail required to reconnect")])
  else
    let rc := roomCode.getD ""
    let em := userEmail.getD ""
    match lookupRoom s.rooms rc with
    | none => (s, [(ws, Msg.error "Room does not exist")])
    | some room =>
        if room.state = RoomState.ended then
          (s, [(ws, Msg.error "Room already ended")])
        else
          let tags1 := setTags s.tags ws { room := some rc, userEmail := some em }
          if room.owner.email = em then
            ({ rooms := setRoom s.rooms rc { room with owner := { room.owner with ws := ws } },
               tags := tags1 },
             [(ws, Msg.reconnected room.quiz "owner" room.state (timerOrNull room.timer))])
          else
            ({ rooms := setRoom s.rooms rc { room with clients := rebindOrAppend ws em room.clients },
               tags := tags1 },
             [(ws, Msg.reconnected room.quiz "client" room.state (timerOrNull room.timer))])

/-- The `deleteRoom` branch (index.js:320-350): owner-only; notifies every
participant (tagging the owner) then removes the room (clearing its timer).
Connection tags are not touched. -/
def deleteRoomOp (s : ServerState) (ws : Nat) (roomCode : Option String) :
    ServerState × List (Nat × Msg) :=
  if truthyStr roomCode = false then
    (s, [(ws, Msg.error "roomCode required to delete room")])
  else
    let rc := roomCode.getD ""
    match lookupRoom s.rooms rc with
    | none => (s, [(ws, Msg.error "Room does not exist")])
    | some room =>
        if room.owner.ws ≠ ws then
          (s, [(ws, Msg.error "Only the owner can delete the room")])
        else
          ({ s with rooms := removeRoom s.rooms rc },
           (room.owner :: room.clients).map
             (fun c => (c.ws, Msg.roomDeleted (decide (c.ws = room.owner.ws)))))

/-- The `leaveRoom` branch (index.js:355-394): clients only; broadcasts the
updated roster to the remaining participants.  In the dangling case the
caller's `room` tag is cleared before the error is sent. -/
def leaveRoomOp (s : ServerState) (ws : Nat) : ServerState × List (Nat × Msg) :=
  match (s.tags ws).room with
  | none => (s, [(ws, Msg.error "You are not in a room")])
  | some rc =>
    match lookupRoom s.rooms rc with
    | none =>
        ({ s with tags := setTags s.tags ws { room := none, userEmail := (s.tags ws).userEmail } },
         [(ws, Msg.error "Room no longer exists")])
    | some room =>
        if room.owner.ws = ws then
          (s, [(ws, Msg.error "Owner cannot leave. Use deleteRoom instead.")])
        else
          let clients1 := room.clients.filter (fun c => decide (c.ws ≠ ws))
          ({ rooms := setRoom s.rooms rc { room with clients := clients1 },
             tags := setTags s.tags ws { room := none, userEmail := none } },
           (room.owner :: clients1).map (fun c => (c.ws, Msg.userLeft clients1))
             ++ [(ws, Msg.leftRoom)])

/-- The `timeRemaining` reported by `finishQuiz` (index.js:423-424): the
timer's value, or `0` when absent or falsy. -/
def finishTimeRemaining : Option SessionTimer → JSNum
  | none => JSNum.num 0
  | some tm => if jsTruthy tm.timeRemaining then tm.timeRemaining else JSNum.num 0

/-- The `finishQuiz` branch (index.js:399-432): no state or membership
check; records the score (creating the store on first use) and notifies
only the owner. -/
def finishQuizOp (s : ServerState) (ws : Nat) (roomCode userEmail : Option String)
    (score : Option JSNum) : ServerState × List (Nat × Msg) :=
  if (truthyStr roomCode && truthyStr userEmail && score.isSome) = false then
    (s, [(ws, Msg.error "roomCode, userEmail, and numeric score required")])
  else
    let rc := roomCode.getD ""
    let em := userEmail.getD ""
    let sc := score.getD (JSNum.num 0)
    match lookupRoom s.rooms rc with
    | none => (s, [(ws, Msg.error "Room does not exist")])
    | some room =>
        ({ s with rooms := (setRoom s.rooms rc
             { room with finished := some (setScore (room.finished.getD []) em sc) }) },
         [(room.owner.ws, Msg.userFinished em sc (finishTimeRemaining room.timer))])

/-- The `message` relay branch (index.js:438-449). -/
def messageOp (s : ServerState) (ws : Nat) (body : JSVal) : ServerState × List (Nat × Msg) :=
  match (s.tags ws).room with
  | none => (s, [(ws, Msg.error "You are not in a room")])
  | some rc =>
    match lookupRoom s.rooms rc with
    | none => (s, [(ws, Msg.error "You are not in a room")])
    | some room =>
        (s, (room.owner :: room.clients).map (fun c => (c.ws, Msg.relayed body)))

/-- A parsed inbound `{action, body}` message.  Email-like and room-code
fields are optional strings (`none` = absent / non-string); `timerSeconds`
and `score` are `some` exactly when the supplied value has JavaScript type
number (including `NaN`); `create` additionally carries the oracle of
random draws its generation loop consumes. -/
inductive Action where
  | create : Option String → JSVal → List Nat → Action
  | join : Option String → Option String → Option String → Action
  | startSession : Option String → Option JSNum → Action
  | reconnect : Option String → Option String → Action
  | deleteRoomA : Option String → Action
  | leaveRoomA : Action
  | finishQuiz : Option String → Option String → Option JSNum → Action
  | relayA : JSVal → Action
  | unknown : String → Action
deriving DecidableEq

/-- The message handler (index.js:98-453). -/
def handleMessage (s : ServerState) (ws : Nat) : Action → ServerState × List (Nat × Msg)
  | .create em q rand => createOp s ws em q rand
  | .join rc em un => joinOp s ws rc em un
  | .startSession rc ts => startSessionOp s ws rc ts
  | .reconnect rc em => reconnectOp s ws rc em
  | .deleteRoomA rc => deleteRoomOp s ws rc
  | .leaveRoomA => leaveRoomOp s ws
  | .finishQuiz rc em sc => finishQuizOp s ws rc em sc
  | .relayA b => messageOp s ws b
  | .unknown name => (s, [(ws, Msg.error ("Unknown action: " ++ name))])

/-- An event the single-threaded server processes to completion: an inbound
message, an interval tick, a connection close/error (both run `leaveRoom`),
or a new connection (tags initialised to null). -/
inductive Event where
  | emsg : Nat → Action → Event
  | tick : String → Event
  | close : Nat → Event
  | connect : Nat → Event

/-- One step of the server. -/
def step (s : ServerState) : Event → ServerState × List (Nat × Msg)
  | .emsg ws a => handleMessage s ws a
  | .tick c => roomTick s c
  | .close ws => leaveRoomFn s ws
  | .connect ws => ({ s with tags := setTags s.tags ws ⟨none, none⟩ }, [])

/-- Run a list of events, keeping only the final state. -/
def runEvents (s : ServerState) (es : List Event) : ServerState :=
  es.foldl (fun st e => (step st e).1) s

/-- The state at process start: no rooms, all tags null. -/
def initialState : ServerState :=
  { rooms := [], tags := fun _ => { room := none, userEmail := none } }

/-- Iterated ticks of one room's interval. -/
def tickIter (s : ServerState) (c : String) : Nat → ServerState
  | 0 => s
  | n + 1 => tickIter (roomTick s c).1 c n

/-- Numeric rank of a room state, for monotonicity statements. -/
def stateRank : RoomState → Nat
  | .waiting => 0
  | .started => 1
  | .ended => 2

/-- The emails of a room's member roster. -/
def emailsOf (r : Room) : List String := r.clients.map Participant.email

/-- Every live room's roster mentions each email at most once. -/
def roomsWellFormed (s : ServerState) : Prop :=
  ∀ c r, lookupRoom s.rooms c = some r → (emailsOf r).Nodup

/-- Actions that run `leaveRoom(ws)` before validating anything. -/
def isDetachFirst : Action → Bool
  | .create _ _ _ => true
  | .join _ _ _ => true
  | _ => false

/-- The one `leaveRoom`-action corner that mutates on a validation error:
the caller is tagged with a room that no longer exists. -/
def leavesDangling (s : ServerState) (ws : Nat) : Action → Bool
  | .leaveRoomA =>
      match (s.tags ws).room with
      | some c => (lookupRoom s.rooms c).isNone
      | none => false
  | _ => false

/-- Events excluded from the state-monotonicity theorem: `startSession`
(which sets `started` unconditionally) and `create` (which makes a fresh
room, possibly at a code its own implicit leave just freed). -/
def isStartOrCreate : Event → Bool
  | .emsg _ (.startSession _ _) => true
  | .emsg _ (.create _ _ _) => true
  | _ => false

/-! ## Association-list and roster lemmas -/

theorem lookupRoom_setRoom (m : List (String × Room)) (c c' : String) (r : Room) :
    lookupRoom (setRoom m c r) c' = if c = c' then some r else lookupRoom m c' := by
  induction m with
  | nil =>
      by_cases h : c = c' <;> simp [setRoom, lookupRoom, h]
  | cons hd tl ih =>
      obtain ⟨k, v⟩ := hd
      by_cases h1 : k = c
      · subst h1
        by_cases h2 : k = c' <;> simp [setRoom, lookupRoom, h2]
      · by_cases h2 : k = c' <;> by_cases h3 : c = c' <;>
          simp_all [setRoom, lookupRoom]

theorem lookupRoom_setRoom_self (m : List (String × Room)) (c : String) (r : Room) :
    lookupRoom (setRoom m c r) c = some r := by
  rw [lookupRoom_setRoom]; simp

theorem lookupRoom_removeRoom (m : List (String × Room)) (c c' : String) :
    lookupRoom (removeRoom m c) c' = if c = c' then none else lookupRoom m c' := by
  induction m with
  | nil =>
      by_cases h : c = c' <;> simp [removeRoom, lookupRoom, h]
  | cons hd tl ih =>
      obtain ⟨k, v⟩ := hd
      by_cases h1 : k = c
      · subst h1
        rw [removeRoom, if_pos rfl, ih]
        by_cases h2 : k = c' <;> simp [lookupRoom, h2]
      · by_cases h2 : k = c' <;> by_cases h3 : c = c' <;>
          simp_all [removeRoom, lookupRoom]

theorem lookupScore_setScore_self (m : List (String × JSNum)) (em : String) (sc : JSNum) :
    lookupScore (setScore m em sc) em = some sc := by
  induction m with
  | nil => simp [setScore, lookupScore]
  | cons hd tl ih =>
      obtain ⟨k, v⟩ := hd
      by_cases h1 : k = em <;> simp_all [setScore, lookupScore]

/-- After `leaveRoom(ws)`, every surviving room is either untouched or is
its old value with `ws` filtered out of the roster. -/
theorem leaveRoomFn_rooms (s : ServerState) (ws : Nat) (c : String) (r' : Room)
    (h : lookupRoom (leaveRoomFn s ws).1.rooms c = some r') :
    lookupRoom s.rooms c = some r' ∨
    ∃ r, lookupRoom s.rooms c = some r ∧
      r' = { r with clients := r.clients.filter (fun p => decide (p.ws ≠ ws)) } := by
  unfold leaveRoomFn at h
  split at h
  · exact Or.inl h
  · split at h
    · exact Or.inl h
    · rename_i rc htag room hlr
      split at h
      · simp only [lookupRoom_removeRoom] at h
        split at h
        · simp at h
        · exact Or.inl h
      · simp only [lookupRoom_setRoom] at h
        split at h
        · rename_i hc
          subst hc
          exact Or.inr ⟨room, hlr, (Option.some.injEq _ _).mp h.symm⟩
        · exact Or.inl h

/-- The member rebind/append keeps the roster's email list, extending it
with the new email exactly when it was absent. -/
theorem emailsOf_rebindOrAppend (ws : Nat) (em : String) (l : List Participant) :
    (rebindOrAppend ws em l).map Participant.email =
      if em ∈ l.map Participant.email then l.map Participant.email
      else l.map Participant.email ++ [em] := by
  induction l with
  | nil => simp [rebindOrAppend]
  | cons c rest ih =>
      by_cases h1 : c.email = em
      · simp [rebindOrAppend, h1, List.mem_cons]
      · have h1' : ¬ em = c.email := fun hh => h1 hh.symm
        simp only [rebindOrAppend, if_neg h1, List.map_cons, ih, List.mem_cons, h1',
          false_or]
        by_cases h2 : em ∈ rest.map Participant.email <;> simp [h2]

/-- Rebinding an existing email leaves the entry for that email pointing at
the new connection. -/
theorem rebindOrAppend_find (ws : Nat) (em : String) (l : List Participant)
    (h : em ∈ l.map Participant.email) :
    (rebindOrAppend ws em l).find? (fun p => decide (p.email = em)) = some ⟨ws, em⟩ := by
  induction l with
  | nil => simp at h
  | cons c rest ih =>
      simp only [rebindOrAppend]
      split_ifs with h1
      · simp [List.find?]
      · rw [List.map_cons, List.mem_cons] at h
        rcases h with h | h
        · exact absurd h.symm h1
        · simp only [List.find?]
          have : (decide (c.email = em)) = false := by simp [h1]
          rw [this]
          exact ih h

/-- Appending a fresh email adds the new participant at the end. -/
theorem rebindOrAppend_notMem (ws : Nat) (em : String) (l : List Participant)
    (h : em ∉ l.map Participant.email) :
    rebindOrAppend ws em l = l ++ [⟨ws, em⟩] := by
  induction l with
  | nil => simp [rebindOrAppend]
  | cons c rest ih =>
      simp only [rebindOrAppend]
      have h1 : ¬ c.email = em := fun hc => h (by simp [hc])
      have h2 : em ∉ rest.map Participant.email := fun hmem => h (by simp [hmem])
      simp [h1, ih h2]

/-! ## Counterexamples (concrete executions from the initial state) -/

/-- Claim C1, counterexample.  A reachable room whose session has expired is
in state `ended`; the owner then calls `startSession` again and the room is
back in state `started`: `ended` is not absorbing and the state regresses. -/
theorem c1_counterexample :
    (lookupRoom (runEvents initialState
      [Event.connect 0,
       Event.emsg 0 (Action.create (some "a@x") JSVal.null [234]),
       Event.emsg 0 (Action.startSession (some "1234") (some (JSNum.num 1))),
       Event.tick "1234"]).rooms "1234").map Room.state = some RoomState.ended ∧
    (lookupRoom (runEvents initialState
      [Event.connect 0,
       Event.emsg 0 (Action.create (some "a@x") JSVal.null [234]),
       Event.emsg 0 (Action.startSession (some "1234") (some (JSNum.num 1))),
       Event.tick "1234",
       Event.emsg 0 (Action.startSession (some "1234") none)]).rooms "1234").map Room.state
      = some RoomState.started := by
  decide

/-- Claim C2, counterexample.  On the same reachable room, `startSession`
with `timerSeconds = 0` and with `timerSeconds` omitted produce different
`sessionStarted` broadcasts (`timeRemaining` 1 versus 60) and different
timers: the two cases do not behave identically. -/
theorem c2_counterexample :
    (startSessionOp (runEvents initialState
      [Event.connect 0,
       Event.emsg 0 (Action.create (some "a@x") JSVal.null [234])]) 0
      (some "1234") (some (JSNum.num 0))).2 ≠
    (startSessionOp (runEvents initialState
      [Event.connect 0,
       Event.emsg 0 (Action.create (some "a@x") JSVal.null [234])]) 0
      (some "1234") none).2 := by
  decide

/-- Claim C3, counterexample.  A member of a reachable room sends `create`
with a missing `userEmail`.  The call fails with the validation error, yet
the caller has been removed from its room's roster and its `room` and
`userEmail` tags are cleared: a failed validation mutated state. -/
theorem c3_counterexample :
    ((runEvents initialState
      [Event.connect 0,
       Event.emsg 0 (Action.create (some "a@x") JSVal.null [234]),
       Event.connect 1,
       Event.emsg 1 (Action.join (some "1234") (some "b@x") none)]).tags 1).room = some "1234" ∧
    (lookupRoom (runEvents initialState
      [Event.connect 0,
       Event.emsg 0 (Action.create (some "a@x") JSVal.null [234]),
       Event.connect 1,
       Event.emsg 1 (Action.join (some "1234") (some "b@x") none)]).rooms "1234").map Room.clients
      = some [⟨1, "b@x"⟩] ∧
    (step (runEvents initialState
      [Event.connect 0,
       Event.emsg 0 (Action.create (some "a@x") JSVal.null [234]),
       Event.connect 1,
       Event.emsg 1 (Action.join (some "1234") (some "b@x") none)])
      (Event.emsg 1 (Action.create none JSVal.null [500]))).2
      = [(1, Msg.error "userEmail required to create room")] ∧
    ((step (runEvents initialState
      [Event.connect 0,
       Event.emsg 0 (Action.create (some "a@x") JSVal.null [234]),
       Event.connect 1,
       Event.emsg 1 (Action.join (some "1234") (some "b@x") none)])
      (Event.emsg 1 (Action.create none JSVal.null [500]))).1.tags 1).room = none ∧
    (lookupRoom (step (runEvents initialState
      [Event.connect 0,
       Event.emsg 0 (Action.create (some "a@x") JSVal.null [234]),
       Event.connect 1,
       Event.emsg 1 (Action.join (some "1234") (some "b@x") none)])
      (Event.emsg 1 (Action.create none JSVal.null [500]))).1.rooms "1234").map Room.clients
      = some [] := by
  decide

/-- Claim C4, counterexample.  A member of a reachable `started` room sends a
`join` naming that room.  The join fails with the validation error, but the
member has been removed from the roster and its tags cleared: the failed
join mutated membership. -/
theorem c4_counterexample :
    (lookupRoom (runEvents initialState
      [Event.connect 0,
       Event.emsg 0 (Action.create (some "a@x") JSVal.null [234]),
       Event.connect 1,
       Event.emsg 1 (Action.join (some "1234") (some "b@x") none),
       Event.emsg 0 (Action.startSession (some "1234") (some (JSNum.num 5)))]).rooms
      "1234").map (fun r => (r.state, r.clients)) = some (RoomState.started, [⟨1, "b@x"⟩]) ∧
    (step (runEvents initialState
      [Event.connect 0,
       Event.emsg 0 (Action.create (some "a@x") JSVal.null [234]),
       Event.connect 1,
       Event.emsg 1 (Action.join (some "1234") (some "b@x") none),
       Event.emsg 0 (Action.startSession (some "1234") (some (JSNum.num 5)))])
      (Event.emsg 1 (Action.join (some "1234") (some "b@x") none))).2
      = [(1, Msg.error "Session already started, cannot join")] ∧
    (lookupRoom (step (runEvents initialState
      [Event.connect 0,
       Event.emsg 0 (Action.create (some "a@x") JSVal.null [234]),
       Event.connect 1,
       Event.emsg 1 (Action.join (some "1234") (some "b@x") none),
       Event.emsg 0 (Action.startSession (some "1234") (some (JSNum.num 5)))])
      (Event.emsg 1 (Action.join (some "1234") (some "b@x") none))).1.rooms "1234").map
      Room.clients = some [] := by
  decide

/-- Claim C5, counterexample.  A `join` that supplies the owner's own email
is accepted and pushes a member whose email equals the owner's email, in a
room reachable from the initial state: the members-distinct-from-owner
invariant is not preserved by `join`. -/
theorem c5_counterexample :
    (lookupRoom (runEvents initialState
      [Event.connect 0,
       Event.emsg 0 (Action.create (some "a@x") JSVal.null [234]),
       Event.connect 1,
       Event.emsg 1 (Action.join (some "1234") (some "a@x") none)]).rooms "1234").map
      (fun r => decide (r.owner.email ∈ emailsOf r)) = some true := by
  decide

/-! ## Concrete fixtures for witnesses -/

/-- A room whose session has ended (no timer). -/
def roomEnded : Room :=
  { owner := ⟨0, "a@x"⟩, clients := [⟨1, "b@x"⟩], quiz := JSVal.null,
    state := RoomState.ended, timer := none, finished := none }

/-- A started room with one second remaining on its timer. -/
def roomStarted : Room :=
  { owner := ⟨0, "a@x"⟩, clients := [⟨1, "b@x"⟩], quiz := JSVal.null,
    state := RoomState.started, timer := some ⟨JSNum.num 1⟩, finished := none }

/-- A server holding only `roomEnded` at code 1234; no connection tagged. -/
def stateEnded : ServerState :=
  { rooms := [("1234", roomEnded)], tags := fun _ => ⟨none, none⟩ }

/-- A server holding only `roomStarted` at code 1234; no connection tagged. -/
def stateStarted : ServerState :=
  { rooms := [("1234", roomStarted)], tags := fun _ => ⟨none, none⟩ }

/-! ## Claim theorems -/

/-- Every code the generation loop accepts is in `[1000, 9999]` (four
decimal digits) and free in the store it was checked against. -/
theorem genRoomCode_spec (occupied : List (String × Room)) (rand : List Nat) (code : String)
    (h : genRoomCode occupied rand = some code) :
    (∃ n : ℕ, code = Nat.repr n ∧ 1000 ≤ n ∧ n < 10000 ∧ (Nat.digits 10 n).length = 4) ∧
    lookupRoom occupied code = none := by
  induction rand with
  | nil => simp [genRoomCode] at h
  | cons r rest ih =>
      simp only [genRoomCode] at h
      split at h
      · rename_i hfresh
        have hcode : code = Nat.repr (1000 + r % 9000) := ((Option.some.injEq _ _).mp h).symm
        subst hcode
        refine ⟨⟨1000 + r % 9000, rfl, by omega, ?_, ?_⟩, hfresh⟩
        · have := Nat.mod_lt r (show 0 < 9000 by norm_num)
          omega
        · have hn2 : 1000 + r % 9000 < 10000 := by
            have := Nat.mod_lt r (show 0 < 9000 by norm_num)
            omega
          have hlog : Nat.log 10 (1000 + r % 9000) = 3 := by
            apply Nat.log_eq_of_pow_le_of_lt_pow
            · norm_num
            · norm_num
              omega
          rw [Nat.digits_len 10 _ (by norm_num) (by omega), hlog]
      · exact ih h

/-- Claim C8.  A successful `create` (valid email, generation loop found a
code) replies `created` with the new code; the code is a four-decimal-digit
numeral that no room live at generation time uses, and the new room is
registered under it in `waiting` state. -/
theorem c8_create_code (s : ServerState) (ws : Nat) (em : Option String) (q : JSVal)
    (rand : List Nat) (code : String)
    (hem : truthyStr em = true)
    (hgen : genRoomCode (leaveRoomFn s ws).1.rooms rand = some code) :
    (createOp s ws em q rand).2 = (leaveRoomFn s ws).2 ++ [(ws, Msg.created code (jsvOrNull q))] ∧
    lookupRoom (leaveRoomFn s ws).1.rooms code = none ∧
    lookupRoom (createOp s ws em q rand).1.rooms code =
      some { owner := ⟨ws, em.getD ""⟩, clients := [], quiz := jsvOrNull q,
             state := RoomState.waiting, timer := none, finished := none } ∧
    ∃ n, code = Nat.repr n ∧ 1000 ≤ n ∧ n < 10000 ∧ (Nat.digits 10 n).length = 4 := by
  have hg := genRoomCode_spec _ _ _ hgen
  refine ⟨?_, hg.2, ?_, hg.1⟩
  · simp [createOp, hem, hgen]
  · simp [createOp, hem, hgen, lookupRoom_setRoom_self]

/-- Claim C8, witness. -/
theorem c8_witness :
    (createOp initialState 0 (some "a@x") JSVal.null [234]).2
      = [(0, Msg.created "1234" JSVal.null)] ∧
    lookupRoom (createOp initialState 0 (some "a@x") JSVal.null [234]).1.rooms "1234" ≠ none := by
  have h := c8_create_code initialState 0 (some "a@x") JSVal.null [234] "1234"
    (by decide) (by decide)
  exact ⟨h.1, by rw [h.2.2.1]; decide⟩

theorem filter_ticks_not_sessionEnded (l : List Participant) (t : JSNum) :
    (l.map (fun p => (p.ws, Msg.timerTick t))).filter
      (fun x => decide (x.2 = Msg.sessionEnded)) = [] := by
  induction l with
  | nil => rfl
  | cons a l ih => simp [List.filter_cons, ih]

theorem filter_ends_sessionEnded (l : List Participant) :
    (l.map (fun p => (p.ws, Msg.sessionEnded))).filter
      (fun x => decide (x.2 = Msg.sessionEnded)) = l.map (fun p => (p.ws, Msg.sessionEnded)) := by
  induction l with
  | nil => rfl
  | cons a l ih => simp [List.filter_cons, ih]

/-- Claim C6.  When a tick takes a room's timer to (at or below) zero, in
that same tick the room's state becomes `ended` and its timer is removed,
and the tick's emissions are the `timerTick` broadcast followed by one
`sessionEnded` to the owner and one to each member — so the `sessionEnded`
emissions are exactly one per participant. -/
theorem c6_expiry (s : ServerState) (c : String) (r : Room) (tm : SessionTimer)
    (h1 : lookupRoom s.rooms c = some r) (h2 : r.timer = some tm)
    (h3 : jsLe0 (jsSub1 tm.timeRemaining) = true) :
    lookupRoom (roomTick s c).1.rooms c
      = some { r with state := RoomState.ended, timer := none } ∧
    (roomTick s c).2
      = (r.owner :: r.clients).map (fun p => (p.ws, Msg.timerTick (jsSub1 tm.timeRemaining)))
        ++ (r.owner :: r.clients).map (fun p => (p.ws, Msg.sessionEnded)) ∧
    (roomTick s c).2.filter (fun x => decide (x.2 = Msg.sessionEnded))
      = (r.owner :: r.clients).map (fun p => (p.ws, Msg.sessionEnded)) := by
  refine ⟨?_, ?_, ?_⟩
  · simp [roomTick, h1, h2, h3, lookupRoom_setRoom_self]
  · simp [roomTick, h1, h2, h3]
  · simp [roomTick, h1, h2, h3, List.filter_append,
      filter_ticks_not_sessionEnded, filter_ends_sessionEnded]

/-- Claim C6, witness. -/
theorem c6_witness :
    lookupRoom (roomTick stateStarted "1234").1.rooms "1234"
      = some { roomStarted with state := RoomState.ended, timer := none } ∧
    (roomTick stateStarted "1234").2
      = [(0, Msg.timerTick (JSNum.num 0)), (1, Msg.timerTick (JSNum.num 0)),
         (0, Msg.sessionEnded), (1, Msg.sessionEnded)] := by
  have h := c6_expiry stateStarted "1234" roomStarted ⟨JSNum.num 1⟩ (by decide) (by decide)
    (by decide)
  exact ⟨h.1, by rw [h.2.1]; decide⟩

/-- Claim C7.  `reconnect` with both fields present: an absent room or an
`ended` room is rejected with an error and no mutation; in a non-ended
room the owner's email rebinds the owner's connection and replies with
role `owner`; an email already on the roster (and not the owner's) rebinds
that member's connection, keeping the roster's emails unchanged, and
replies with role `client`; an unknown email is appended as a new member
and replies with role `client`. -/
theorem c7_reconnect (s : ServerState) (ws : Nat) (rc em : String)
    (hrc : rc ≠ "") (hem : em ≠ "") :
    (lookupRoom s.rooms rc = none →
      reconnectOp s ws (some rc) (some em) = (s, [(ws, Msg.error "Room does not exist")])) ∧
    (∀ room, lookupRoom s.rooms rc = some room → room.state = RoomState.ended →
      reconnectOp s ws (some rc) (some em) = (s, [(ws, Msg.error "Room already ended")])) ∧
    (∀ room, lookupRoom s.rooms rc = some room → room.state ≠ RoomState.ended →
      room.owner.email = em →
      reconnectOp s ws (some rc) (some em) =
        ({ rooms := setRoom s.rooms rc { room with owner := ⟨ws, room.owner.email⟩ },
           tags := setTags s.tags ws ⟨some rc, some em⟩ },
         [(ws, Msg.reconnected room.quiz "owner" room.state (timerOrNull room.timer))])) ∧
    (∀ room, lookupRoom s.rooms rc = some room → room.state ≠ RoomState.ended →
      room.owner.email ≠ em → em ∈ emailsOf room →
      (∃ r1, lookupRoom (reconnectOp s ws (some rc) (some em)).1.rooms rc = some r1 ∧
        r1.owner = room.owner ∧ r1.state = room.state ∧
        emailsOf r1 = emailsOf room ∧
        r1.clients.find? (fun p => decide (p.email = em)) = some ⟨ws, em⟩) ∧
      (reconnectOp s ws (some rc) (some em)).2 =
        [(ws, Msg.reconnected room.quiz "client" room.state (timerOrNull room.timer))]) ∧
    (∀ room, lookupRoom s.rooms rc = some room → room.state ≠ RoomState.ended →
      room.owner.email ≠ em → em ∉ emailsOf room →
      (∃ r1, lookupRoom (reconnectOp s ws (some rc) (some em)).1.rooms rc = some r1 ∧
        r1.owner = room.owner ∧ r1.state = room.state ∧
        r1.clients = room.clients ++ [⟨ws, em⟩]) ∧
      (reconnectOp s ws (some rc) (some em)).2 =
        [(ws, Msg.reconnected room.quiz "client" room.state (timerOrNull room.timer))]) := by
  refine ⟨?_, ?_, ?_, ?_, ?_⟩
  · intro habs
    simp [reconnectOp, truthyStr, hrc, hem, habs]
  · intro room hroom hend
    simp [reconnectOp, truthyStr, hrc, hem, hroom, hend]
  · intro room hroom hend how
    simp [reconnectOp, truthyStr, hrc, hem, hroom, hend, how]
  · intro room hroom hend how hmem
    have hmem' : em ∈ room.clients.map Participant.email := hmem
    refine ⟨⟨{ room with clients := rebindOrAppend ws em room.clients }, ?_, rfl, rfl, ?_, ?_⟩, ?_⟩
    · simp [reconnectOp, truthyStr, hrc, hem, hroom, hend, how, lookupRoom_setRoom_self]
    · show (rebindOrAppend ws em room.clients).map Participant.email = emailsOf room
      rw [emailsOf_rebindOrAppend]
      simp [emailsOf, hmem']
    · exact rebindOrAppend_find ws em room.clients hmem'
    · simp [reconnectOp, truthyStr, hrc, hem, hroom, hend, how]
  · intro room hroom hend how hmem
    have hmem' : em ∉ room.clients.map Participant.email := hmem
    refine ⟨⟨{ room with clients := rebindOrAppend ws em room.clients }, ?_, rfl, rfl, ?_⟩, ?_⟩
    · simp [reconnectOp, truthyStr, hrc, hem, hroom, hend, how, lookupRoom_setRoom_self]
    · exact rebindOrAppend_notMem ws em room.clients hmem'
    · simp [reconnectOp, truthyStr, hrc, hem, hroom, hend, how]

/-- Claim C7, witness.  In the started fixture, reconnecting the owner's
email from a fresh connection rebinds the owner; an unknown email is
appended as a member with role `client`. -/
theorem c7_witness :
    reconnectOp stateStarted 5 (some "1234") (some "a@x") =
      ({ rooms := setRoom stateStarted.rooms "1234"
            { roomStarted with owner := ⟨5, "a@x"⟩ },
         tags := setTags stateStarted.tags 5 ⟨some "1234", some "a@x"⟩ },
       [(5, Msg.reconnected JSVal.null "owner" RoomState.started (some (JSNum.num 1)))]) ∧
    (reconnectOp stateStarted 6 (some "1234") (some "c@x")).2 =
      [(6, Msg.reconnected JSVal.null "client" RoomState.started (some (JSNum.num 1)))] := by
  constructor
  · have h := (c7_reconnect stateStarted 5 "1234" "a@x" (by decide) (by decide)).2.2.1
      roomStarted (by decide) (by decide) (by decide)
    exact h
  · have h := (c7_reconnect stateStarted 6 "1234" "c@x" (by decide) (by decide)).2.2.2.2
      roomStarted (by decide) (by decide) (by decide) (by decide)
    exact h.2

/-- Claim C10.  `finishQuiz` with a present room code, a truthy email and a
numeric score succeeds with no check of the room's state or of the caller's
or the email's membership: the score is recorded under the email (the store
being created on first use), and the only emission is a `userFinished` to
the owner, whose reported `timeRemaining` is 0 whenever no timer is active
or the remaining value is falsy (0 or `NaN`). -/
theorem c10_finishQuiz (s : ServerState) (ws : Nat) (rc em : String) (sc : JSNum)
    (room : Room) (hrc : rc ≠ "") (hem : em ≠ "")
    (hroom : lookupRoom s.rooms rc = some room) :
    finishQuizOp s ws (some rc) (some em) (some sc) =
      ({ s with rooms := (setRoom s.rooms rc
          { room with finished := some (setScore (room.finished.getD []) em sc) }) },
       [(room.owner.ws, Msg.userFinished em sc (finishTimeRemaining room.timer))]) ∧
    lookupScore (setScore (room.finished.getD []) em sc) em = some sc ∧
    (room.timer = none → finishTimeRemaining room.timer = JSNum.num 0) ∧
    (∀ tm, room.timer = some tm → jsTruthy tm.timeRemaining = false →
      finishTimeRemaining room.timer = JSNum.num 0) := by
  refine ⟨?_, lookupScore_setScore_self _ _ _, ?_, ?_⟩
  · simp [finishQuizOp, truthyStr, hrc, hem, hroom]
  · intro hnone
    simp [finishTimeRemaining, hnone]
  · intro tm htm hfalsy
    simp [finishTimeRemaining, htm, hfalsy]

/-- Claim C10, witness.  In the ended fixture (no timer), a connection that
is in no room submits a score for an email that is not on the roster; the
call succeeds, only the owner is notified, and `timeRemaining` is 0. -/
theorem c10_witness :
    (finishQuizOp stateEnded 7 (some "1234") (some "z@x") (some (JSNum.num 5))).2
      = [(0, Msg.userFinished "z@x" (JSNum.num 5) (JSNum.num 0))] ∧
    lookupScore (setScore (roomEnded.finished.getD []) "z@x" (JSNum.num 5)) "z@x"
      = some (JSNum.num 5) := by
  have h := c10_finishQuiz stateEnded 7 "1234" "z@x" (JSNum.num 5) roomEnded
    (by decide) (by decide) (by decide)
  exact ⟨by rw [h.1]; decide, h.2.1⟩

/-- Claim C2, amended.  `timerSeconds = 0` and `timerSeconds = -5` both yield
the floored minimum duration 1 and behave identically to each other, while
omitting `timerSeconds` yields the default 60; the whole behaviour of
`startSession` depends on `timerSeconds` only through the computed
duration. -/
theorem c2_amended (s : ServerState) (ws : Nat) (rc : Option String) :
    sessionDuration (some (JSNum.num 0)) = JSNum.num 1 ∧
    sessionDuration (some (JSNum.num (-5))) = JSNum.num 1 ∧
    sessionDuration none = JSNum.num 60 ∧
    (∀ ts1 ts2 : Option JSNum, sessionDuration ts1 = sessionDuration ts2 →
      startSessionOp s ws rc ts1 = startSessionOp s ws rc ts2) := by
  refine ⟨by decide, by decide, by decide, ?_⟩
  intro ts1 ts2 h
  unfold startSessionOp
  rw [h]

/-- Claim C2, witness. -/
theorem c2_witness :
    startSessionOp stateStarted 0 (some "1234") (some (JSNum.num 0))
      = startSessionOp stateStarted 0 (some "1234") (some (JSNum.num (-5))) :=
  (c2_amended stateStarted 0 (some "1234")).2.2.2 _ _ (by decide)

/-- Claim C4, amended.  A `join` naming a `started` room always fails with
the validation error; when the caller was not tagged with any room (so the
implicit `leaveRoom` that precedes validation is a no-op) the failed call
leaves every room and every connection's tags exactly unchanged. -/
theorem c4_amended (s : ServerState) (ws : Nat) (rc em : String) (un : Option String)
    (room : Room) (hrc : rc ≠ "") (hem : em ≠ "")
    (hfree : (s.tags ws).room = none)
    (hroom : lookupRoom s.rooms rc = some room)
    (hstarted : room.state = RoomState.started) :
    joinOp s ws (some rc) (some em) un
      = (s, [(ws, Msg.error "Session already started, cannot join")]) := by
  have hleave : leaveRoomFn s ws = (s, []) := by
    unfold leaveRoomFn
    rw [hfree]
  simp [joinOp, hleave, truthyStr, hrc, hem, hroom, hstarted]

/-- Claim C4, witness. -/
theorem c4_witness :
    joinOp stateStarted 2 (some "1234") (some "b@x") none
      = (stateStarted, [(2, Msg.error "Session already started, cannot join")]) :=
  c4_amended stateStarted 2 "1234" "b@x" none roomStarted (by decide) (by decide) rfl
    (by decide) (by decide)

/-- A tick on a room whose timer reads `NaN` leaves the room unchanged and
emits only `timerTick NaN`: `NaN - 1 = NaN` and `NaN <= 0` is false. -/
theorem roomTick_nan (s : ServerState) (c : String) (r : Room)
    (h1 : lookupRoom s.rooms c = some r) (h2 : r.timer = some ⟨JSNum.nan⟩) :
    lookupRoom (roomTick s c).1.rooms c = some r ∧
    (roomTick s c).2 = (r.owner :: r.clients).map (fun p => (p.ws, Msg.timerTick JSNum.nan)) := by
  have hr : { r with timer := some (⟨JSNum.nan⟩ : SessionTimer) } = r := by
    obtain ⟨ow, cl, qz, st, tmr, fin⟩ := r
    simp only at h2
    rw [h2]
  constructor
  · simp [roomTick, h1, h2, jsSub1, jsLe0, lookupRoom_setRoom_self, hr]
  · simp [roomTick, h1, h2, jsSub1, jsLe0]

/-- Claim C9.  `startSession` with `timerSeconds = NaN` (a value of number
type) computes duration `NaN`, broadcasts `sessionStarted` with
`timeRemaining = NaN`, and installs a `NaN` timer; every subsequent tick
leaves the room `started` with the timer still reading `NaN` and emits no
`sessionEnded`: the expiry check never succeeds and the room never
reaches `ended`. -/
theorem c9_nan (s : ServerState) (ws : Nat) (rc : String) (room : Room)
    (h1 : lookupRoom s.rooms rc = some room) (h2 : room.owner.ws = ws) :
    sessionDuration (some JSNum.nan) = JSNum.nan ∧
    (startSessionOp s ws (some rc) (some JSNum.nan)).2
      = (room.owner :: room.clients).map
          (fun c => (c.ws, Msg.sessionStarted (decide (c.email = room.owner.email))
            room.quiz JSNum.nan)) ∧
    ∀ n : ℕ,
      lookupRoom (tickIter (startSessionOp s ws (some rc) (some JSNum.nan)).1 rc n).rooms rc
        = some { room with state := RoomState.started, timer := some ⟨JSNum.nan⟩ } ∧
      (roomTick (tickIter (startSessionOp s ws (some rc) (some JSNum.nan)).1 rc n) rc).2.filter
          (fun x => decide (x.2 = Msg.sessionEnded)) = [] := by
  have hdur : sessionDuration (some JSNum.nan) = JSNum.nan := by decide
  have hbase : lookupRoom (startSessionOp s ws (some rc) (some JSNum.nan)).1.rooms rc
      = some { room with state := RoomState.started, timer := some ⟨JSNum.nan⟩ } := by
    simp [startSessionOp, h1, h2, startSessionWith, hdur, lookupRoom_setRoom_self]
  have haux : ∀ (n : ℕ) (s' : ServerState),
      lookupRoom s'.rooms rc
        = some { room with state := RoomState.started, timer := some ⟨JSNum.nan⟩ } →
      lookupRoom (tickIter s' rc n).rooms rc
        = some { room with state := RoomState.started, timer := some ⟨JSNum.nan⟩ } := by
    intro n
    induction n with
    | zero => intro s' h; exact h
    | succ k ih =>
        intro s' h
        rw [tickIter]
        exact ih _ (roomTick_nan s' rc _ h rfl).1
  refine ⟨hdur, ?_, ?_⟩
  · simp [startSessionOp, h1, h2, startSessionWith, hdur]
  · intro n
    refine ⟨haux n _ hbase, ?_⟩
    rw [(roomTick_nan _ rc _ (haux n _ hbase) rfl).2]
    exact filter_ticks_not_sessionEnded _ _

/-- Claim C9, witness. -/
theorem c9_witness :
    (startSessionOp stateStarted 0 (some "1234") (some JSNum.nan)).2
      = [(0, Msg.sessionStarted true JSVal.null JSNum.nan),
         (1, Msg.sessionStarted false JSVal.null JSNum.nan)] ∧
    lookupRoom (tickIter (startSessionOp stateStarted 0 (some "1234")
        (some JSNum.nan)).1 "1234" 3).rooms "1234"
      = some { roomStarted with state := RoomState.started, timer := some ⟨JSNum.nan⟩ } := by
  have h := c9_nan stateStarted 0 "1234" roomStarted (by decide) (by decide)
  exact ⟨by rw [h.2.1]; decide, (h.2.2 3).1⟩

/-- A `startSession` whose only emission is an error left the state
untouched. -/
theorem startSessionOp_error (s : ServerState) (ws : Nat) (rc : Option String)
    (ts : Option JSNum) (e : String)
    (h : (startSessionOp s ws rc ts).2 = [(ws, Msg.error e)]) :
    (startSessionOp s ws rc ts).1 = s := by
  rcases hlr : lookupRoom s.rooms (rc.getD "undefined") with _ | room
  · simp [startSessionOp, hlr]
  · by_cases how : room.owner.ws = ws
    · exfalso
      simp [startSessionOp, hlr, how, startSessionWith] at h
    · simp [startSessionOp, hlr, how]

/-- A `reconnect` whose only emission is an error left the state
untouched. -/
theorem reconnectOp_error (s : ServerState) (ws : Nat) (rc em : Option String) (e : String)
    (h : (reconnectOp s ws rc em).2 = [(ws, Msg.error e)]) :
    (reconnectOp s ws rc em).1 = s := by
  by_cases ht : (truthyStr rc && truthyStr em) = false
  · simp [reconnectOp, ht]
  · rcases hlr : lookupRoom s.rooms (rc.getD "") with _ | room
    · simp [reconnectOp, ht, hlr]
    · by_cases hend : room.state = RoomState.ended
      · simp [reconnectOp, ht, hlr, hend]
      · by_cases how : room.owner.email = em.getD "" <;>
          · exfalso
            simp [reconnectOp, ht, hlr, hend, how] at h

/-- A `deleteRoom` whose only emission is an error left the state
untouched. -/
theorem deleteRoomOp_error (s : ServerState) (ws : Nat) (rc : Option String) (e : String)
    (h : (deleteRoomOp s ws rc).2 = [(ws, Msg.error e)]) :
    (deleteRoomOp s ws rc).1 = s := by
  by_cases ht : truthyStr rc = false
  · simp [deleteRoomOp, ht]
  · rcases hlr : lookupRoom s.rooms (rc.getD "") with _ | room
    · simp [deleteRoomOp, ht, hlr]
    · by_cases how : room.owner.ws = ws
      · exfalso
        simp [deleteRoomOp, ht, hlr, how] at h
      · simp [deleteRoomOp, ht, hlr, how]

/-- A `leaveRoom` whose only emission is an error left the state untouched,
provided the caller's tagged room (if any) still exists — the dangling case
clears the caller's `room` tag before erroring. -/
theorem leaveRoomOp_error (s : ServerState) (ws : Nat) (e : String)
    (hd : leavesDangling s ws Action.leaveRoomA = false)
    (h : (leaveRoomOp s ws).2 = [(ws, Msg.error e)]) :
    (leaveRoomOp s ws).1 = s := by
  rcases htag : (s.tags ws).room with _ | rc
  · simp [leaveRoomOp, htag]
  · rcases hlr : lookupRoom s.rooms rc with _ | room
    · exfalso
      simp [leavesDangling, htag, hlr] at hd
    · by_cases how : room.owner.ws = ws
      · simp [leaveRoomOp, htag, hlr, how]
      · exfalso
        simp [leaveRoomOp, htag, hlr, how] at h

/-- A `finishQuiz` whose only emission is an error left the state
untouched. -/
theorem finishQuizOp_error (s : ServerState) (ws : Nat) (rc em : Option String)
    (sc : Option JSNum) (e : String)
    (h : (finishQuizOp s ws rc em sc).2 = [(ws, Msg.error e)]) :
    (finishQuizOp s ws rc em sc).1 = s := by
  by_cases ht : (truthyStr rc && truthyStr em && sc.isSome) = false
  · simp [finishQuizOp, ht]
  · rcases hlr : lookupRoom s.rooms (rc.getD "") with _ | room
    · simp [finishQuizOp, ht, hlr]
    · exfalso
      simp [finishQuizOp, ht, hlr] at h

/-- A `message` relay whose only emission is an error left the state
untouched. -/
theorem messageOp_error (s : ServerState) (ws : Nat) (b : JSVal) (e : String)
    (h : (messageOp s ws b).2 = [(ws, Msg.error e)]) :
    (messageOp s ws b).1 = s := by
  rcases htag : (s.tags ws).room with _ | rc
  · simp [messageOp, htag]
  · rcases hlr : lookupRoom s.rooms rc with _ | room
    · simp [messageOp, htag, hlr]
    · exfalso
      simp [messageOp, htag, hlr] at h

/-- Claim C3, amended.  Every operation that fails a validation precondition
sends an error to the sender; for every action except `create` and `join`
(which run the caller's implicit `leaveRoom` before validating) and except
a `leaveRoom` whose tagged room no longer exists (which clears the caller's
`room` tag), a call whose only emission is an error leaves the entire
server state — every room and every connection's tags — unchanged. -/
theorem c3_amended (s : ServerState) (ws : Nat) (a : Action) (e : String)
    (h1 : isDetachFirst a = false)
    (h2 : leavesDangling s ws a = false)
    (h3 : (handleMessage s ws a).2 = [(ws, Msg.error e)]) :
    (handleMessage s ws a).1 = s := by
  cases a with
  | create em q rand => simp [isDetachFirst] at h1
  | join rc em un => simp [isDetachFirst] at h1
  | startSession rc ts => exact startSessionOp_error s ws rc ts e h3
  | reconnect rc em => exact reconnectOp_error s ws rc em e h3
  | deleteRoomA rc => exact deleteRoomOp_error s ws rc e h3
  | leaveRoomA => exact leaveRoomOp_error s ws e h2 h3
  | finishQuiz rc em sc => exact finishQuizOp_error s ws rc em sc e h3
  | relayA b => exact messageOp_error s ws b e h3
  | unknown n => rfl

/-- Claim C3, witness.  A `reconnect` with both fields missing fails and the
state is exactly the initial state. -/
theorem c3_witness :
    (handleMessage initialState 0 (Action.reconnect none none)).1 = initialState :=
  c3_amended initialState 0 (Action.reconnect none none)
    "roomCode and userEmail required to reconnect" (by decide) (by decide) (by decide)

/-- Rebinding or appending by email preserves duplicate-freeness of the
roster's emails. -/
theorem nodup_rebindOrAppend (ws : Nat) (em : String) (l : List Participant)
    (h : (l.map Participant.email).Nodup) :
    ((rebindOrAppend ws em l).map Participant.email).Nodup := by
  rw [emailsOf_rebindOrAppend]
  split_ifs with hmem
  · exact h
  · rw [List.nodup_append]
    refine ⟨h, List.nodup_singleton em, ?_⟩
    intro x hx hx1
    rw [List.mem_singleton] at hx1
    subst hx1
    exact hmem hx

/-- Updating one binding preserves well-formedness of the store when the
new room's roster is duplicate-free. -/
theorem wf_setRoom (m : List (String × Room)) (c : String) (room1 : Room)
    (hm : ∀ c' r, lookupRoom m c' = some r → (emailsOf r).Nodup)
    (h1 : (emailsOf room1).Nodup) :
    ∀ c' r, lookupRoom (setRoom m c room1) c' = some r → (emailsOf r).Nodup := by
  intro c' r h
  rw [lookupRoom_setRoom] at h
  split at h
  · obtain rfl := Option.some_inj.mp h
    exact h1
  · exact hm c' r h

/-- The function `leaveRoom` preserves well-formedness. -/
theorem wf_leaveRoomFn (s : ServerState) (ws : Nat) (h : roomsWellFormed s) :
    roomsWellFormed (leaveRoomFn s ws).1 := by
  intro c r' ha
  rcases leaveRoomFn_rooms s ws c r' ha with h1 | ⟨r, hr, rfl⟩
  · exact h c _ h1
  · have hnd := h c r hr
    unfold emailsOf at hnd ⊢
    exact ((List.filter_sublist _).map Participant.email).nodup hnd

/-- Claim C5, amended (part 1 of the claim).  If every live room's roster
mentions each email at most once, then after any event — any inbound
message (including a `join` or `reconnect` that supplies the owner's own
email), a tick, a close or a connect — it still does.  (Part 2 of the
claim, members distinct from the owner, fails: see the counterexample.) -/
theorem c5_amended (s : ServerState) (e : Event) (h : roomsWellFormed s) :
    roomsWellFormed (step s e).1 := by
  cases e with
  | connect ws =>
      intro c r ha
      simp only [step] at ha
      exact h c r ha
  | close ws => exact wf_leaveRoomFn s ws h
  | tick rc =>
      intro c r' ha
      rcases hlr : lookupRoom s.rooms rc with _ | r
      · simp only [step, roomTick, hlr] at ha
        exact h c r' ha
      · rcases htm : r.timer with _ | tm
        · simp only [step, roomTick, hlr, htm] at ha
          exact h c r' ha
        · by_cases hle : jsLe0 (jsSub1 tm.timeRemaining) = true
          · simp only [step, roomTick, hlr, htm, hle, if_true] at ha
            refine wf_setRoom s.rooms rc _ h ?_ c r' ha
            exact h rc r hlr
          · simp only [step, roomTick, hlr, htm, hle, if_false, Bool.false_eq_true, Bool.true_eq_false] at ha
            refine wf_setRoom s.rooms rc _ h ?_ c r' ha
            exact h rc r hlr
  | emsg ws a =>
      cases a with
      | create em q rand =>
          intro c r' ha
          by_cases hem : truthyStr em = false
          · simp only [step, handleMessage, createOp, hem, if_true] at ha
            exact wf_leaveRoomFn s ws h c r' ha
          · rcases hg : genRoomCode (leaveRoomFn s ws).1.rooms rand with _ | code
            · simp only [step, handleMessage, createOp, hem, if_false, hg, Bool.false_eq_true, Bool.true_eq_false] at ha
              exact wf_leaveRoomFn s ws h c r' ha
            · simp only [step, handleMessage, createOp, hem, if_false, hg, Bool.false_eq_true, Bool.true_eq_false] at ha
              refine wf_setRoom _ _ _ (fun c' r hr => wf_leaveRoomFn s ws h c' r hr) ?_ c r' ha
              simp [emailsOf]
      | join rc em un =>
          intro c r' ha
          have hwf1 := wf_leaveRoomFn s ws h
          by_cases ht : (truthyStr rc && truthyStr em) = false
          · simp only [step, handleMessage, joinOp, ht, if_true] at ha
            exact hwf1 c r' ha
          · rcases hlr : lookupRoom (leaveRoomFn s ws).1.rooms (rc.getD "") with _ | room
            · simp only [step, handleMessage, joinOp, ht, if_false, hlr, Bool.false_eq_true, Bool.true_eq_false] at ha
              exact hwf1 c r' ha
            · by_cases hst : room.state = RoomState.started
              · simp only [step, handleMessage, joinOp, ht, if_false, hlr, hst, if_true,
                  Bool.false_eq_true, Bool.true_eq_false] at ha
                exact hwf1 c r' ha
              · simp only [step, handleMessage, joinOp, ht, if_false, hlr, hst, if_false,
                  Bool.false_eq_true, Bool.true_eq_false] at ha
                refine wf_setRoom _ _ _ hwf1 ?_ c r' ha
                exact nodup_rebindOrAppend ws (em.getD "") room.clients (hwf1 _ room hlr)
      | startSession rc ts =>
          intro c r' ha
          rcases hlr : lookupRoom s.rooms (rc.getD "undefined") with _ | room
          · simp only [step, handleMessage, startSessionOp, hlr] at ha
            exact h c r' ha
          · by_cases how : room.owner.ws = ws
            · simp only [step, handleMessage, startSessionOp, hlr, how, ne_eq, not_true_eq_false,
                if_false, startSessionWith, Bool.false_eq_true, Bool.true_eq_false] at ha
              refine wf_setRoom _ _ _ h ?_ c r' ha
              exact h _ room hlr
            · simp only [step, handleMessage, startSessionOp, hlr, how, ne_eq, not_false_eq_true,
                if_true] at ha
              exact h c r' ha
      | reconnect rc em =>
          intro c r' ha
          by_cases ht : (truthyStr rc && truthyStr em) = false
          · simp only [step, handleMessage, reconnectOp, ht, if_true] at ha
            exact h c r' ha
          · rcases hlr : lookupRoom s.rooms (rc.getD "") with _ | room
            · simp only [step, handleMessage, reconnectOp, ht, if_false, hlr,
                Bool.false_eq_true, Bool.true_eq_false] at ha
              exact h c r' ha
            · by_cases hend : room.state = RoomState.ended
              · simp only [step, handleMessage, reconnectOp, ht, if_false, hlr, hend, if_true,
                  Bool.false_eq_true, Bool.true_eq_false] at ha
                exact h c r' ha
              · by_cases how : room.owner.email = em.getD ""
                · simp only [step, handleMessage, reconnectOp, ht, if_false, hlr, hend, how,
                    if_true, Bool.false_eq_true, Bool.true_eq_false] at ha
                  refine wf_setRoom _ _ _ h ?_ c r' ha
                  exact h _ room hlr
                · simp only [step, handleMessage, reconnectOp, ht, if_false, hlr, hend, how,
                    Bool.false_eq_true, Bool.true_eq_false] at ha
                  refine wf_setRoom _ _ _ h ?_ c r' ha
                  exact nodup_rebindOrAppend ws (em.getD "") room.clients (h _ room hlr)
      | deleteRoomA rc =>
          intro c r' ha
          by_cases ht : truthyStr rc = false
          · simp only [step, handleMessage, deleteRoomOp, ht, if_true] at ha
            exact h c r' ha
          · rcases hlr : lookupRoom s.rooms (rc.getD "") with _ | room
            · simp only [step, handleMessage, deleteRoomOp, ht, if_false, hlr,
                Bool.false_eq_true, Bool.true_eq_false] at ha
              exact h c r' ha
            · by_cases how : room.owner.ws = ws
              · simp only [step, handleMessage, deleteRoomOp, ht, if_false, hlr, how, ne_eq,
                  not_true_eq_false, Bool.false_eq_true, Bool.true_eq_false] at ha
                rw [lookupRoom_removeRoom] at ha
                split at ha
                · simp at ha
                · exact h c r' ha
              · simp only [step, handleMessage, deleteRoomOp, ht, if_false, hlr, how, ne_eq,
                  not_false_eq_true, if_true, Bool.false_eq_true, Bool.true_eq_false] at ha
                exact h c r' ha
      | leaveRoomA =>
          intro c r' ha
          rcases htag : (s.tags ws).room with _ | rc
          · simp only [step, handleMessage, leaveRoomOp, htag] at ha
            exact h c r' ha
          · rcases hlr : lookupRoom s.rooms rc with _ | room
            · simp only [step, handleMessage, leaveRoomOp, htag, hlr] at ha
              exact h c r' ha
            · by_cases how : room.owner.ws = ws
              · simp only [step, handleMessage, leaveRoomOp, htag, hlr, how, if_true] at ha
                exact h c r' ha
              · simp only [step, handleMessage, leaveRoomOp, htag, hlr, how, if_false] at ha
                refine wf_setRoom _ _ _ h ?_ c r' ha
                have hnd := h rc room hlr
                unfold emailsOf at hnd ⊢
                exact ((List.filter_sublist _).map Participant.email).nodup hnd
      | finishQuiz rc em sc =>
          intro c r' ha
          by_cases ht : (truthyStr rc && truthyStr em && sc.isSome) = false
          · simp only [step, handleMessage, finishQuizOp, ht, if_true] at ha
            exact h c r' ha
          · rcases hlr : lookupRoom s.rooms (rc.getD "") with _ | room
            · simp only [step, handleMessage, finishQuizOp, ht, if_false, hlr,
                Bool.false_eq_true, Bool.true_eq_false] at ha
              exact h c r' ha
            · simp only [step, handleMessage, finishQuizOp, ht, if_false, hlr,
                Bool.false_eq_true, Bool.true_eq_false] at ha
              refine wf_setRoom _ _ _ h ?_ c r' ha
              exact h _ room hlr
      | relayA b =>
          intro c r' ha
          rcases htag : (s.tags ws).room with _ | rc
          · simp only [step, handleMessage, messageOp, htag] at ha
            exact h c r' ha
          · rcases hlr : lookupRoom s.rooms rc with _ | room
            · simp only [step, handleMessage, messageOp, htag, hlr] at ha
              exact h c r' ha
            · simp only [step, handleMessage, messageOp, htag, hlr] at ha
              exact h c r' ha
      | unknown n =>
          intro c r ha
          simp only [step, handleMessage] at ha
          exact h c r ha

/-- Claim C5, witness. -/
theorem c5_witness :
    roomsWellFormed (step initialState (Event.connect 0)).1 :=
  c5_amended initialState (Event.connect 0)
    (fun c r ha => by simp [initialState, lookupRoom] at ha)

theorem stateRank_le_two (st : RoomState) : stateRank st ≤ 2 := by
  cases st <;> simp [stateRank]

theorem rank_le_same {r r' : Room} (h : r' = r) :
    stateRank r.state ≤ stateRank r'.state := by
  rw [h]

theorem lookup_inj {m : List (String × Room)} {c : String} {r r' : Room}
    (h1 : lookupRoom m c = some r) (h2 : lookupRoom m c = some r') : r' = r := by
  rw [h1] at h2
  exact (Option.some_inj.mp h2).symm

/-- The function `leaveRoom` never changes the state field of a surviving room. -/
theorem leaveRoomFn_state (s : ServerState) (ws : Nat) (c : String) (r r' : Room)
    (hb : lookupRoom s.rooms c = some r)
    (ha : lookupRoom (leaveRoomFn s ws).1.rooms c = some r') : r'.state = r.state := by
  rcases leaveRoomFn_rooms s ws c r' ha with h1 | ⟨r0, hr0, rfl⟩
  · rw [lookup_inj hb h1]
  · rw [lookup_inj hb hr0]

/-- Claim C1, amended.  For every event other than a `startSession` message
(which sets state `started` with no state guard — see the counterexample)
and a `create` (which only makes fresh rooms), the state of every room
that exists before and after the event never decreases in the order
`waiting < started < ended`: the only transition these events perform is
timer expiry, `started → ended`. -/
theorem c1_amended (s : ServerState) (e : Event) (c : String) (r r' : Room)
    (he : isStartOrCreate e = false)
    (hb : lookupRoom s.rooms c = some r)
    (ha : lookupRoom (step s e).1.rooms c = some r') :
    stateRank r.state ≤ stateRank r'.state := by
  cases e with
  | connect ws =>
      simp only [step] at ha
      exact rank_le_same (lookup_inj hb ha)
  | close ws =>
      exact le_of_eq (congrArg stateRank (leaveRoomFn_state s ws c r r' hb ha)).symm
  | tick rc =>
      rcases hlr : lookupRoom s.rooms rc with _ | room
      · simp only [step, roomTick, hlr] at ha
        exact rank_le_same (lookup_inj hb ha)
      · rcases htm : room.timer with _ | tm
        · simp only [step, roomTick, hlr, htm] at ha
          exact rank_le_same (lookup_inj hb ha)
        · by_cases hle : jsLe0 (jsSub1 tm.timeRemaining) = true
          · simp only [step, roomTick, hlr, htm, hle, if_true] at ha
            rw [lookupRoom_setRoom] at ha
            split at ha
            · rename_i heq
              subst heq
              obtain rfl := (Option.some_inj.mp ha).symm
              exact stateRank_le_two _
            · exact rank_le_same (lookup_inj hb ha)
          · simp only [step, roomTick, hlr, htm, hle, if_false, Bool.false_eq_true,
              Bool.true_eq_false] at ha
            rw [lookupRoom_setRoom] at ha
            split at ha
            · rename_i heq
              subst heq
              obtain rfl := (Option.some_inj.mp ha).symm
              obtain rfl := lookup_inj hb hlr
              exact le_refl _
            · exact rank_le_same (lookup_inj hb ha)
  | emsg ws a =>
      cases a with
      | create em q rand => simp [isStartOrCreate] at he
      | startSession rc ts => simp [isStartOrCreate] at he
      | join rc em un =>
          by_cases ht : (truthyStr rc && truthyStr em) = false
          · simp only [step, handleMessage, joinOp, ht, if_true] at ha
            exact le_of_eq (congrArg stateRank (leaveRoomFn_state s ws c r r' hb ha)).symm
          · rcases hlr : lookupRoom (leaveRoomFn s ws).1.rooms (rc.getD "") with _ | room
            · simp only [step, handleMessage, joinOp, ht, if_false, hlr, Bool.false_eq_true,
                Bool.true_eq_false] at ha
              exact le_of_eq (congrArg stateRank (leaveRoomFn_state s ws c r r' hb ha)).symm
            · by_cases hst : room.state = RoomState.started
              · simp only [step, handleMessage, joinOp, ht, if_false, hlr, hst, if_true,
                  Bool.false_eq_true, Bool.true_eq_false] at ha
                exact le_of_eq (congrArg stateRank (leaveRoomFn_state s ws c r r' hb ha)).symm
              · simp only [step, handleMessage, joinOp, ht, if_false, hlr, hst,
                  Bool.false_eq_true, Bool.true_eq_false] at ha
                rw [lookupRoom_setRoom] at ha
                split at ha
                · rename_i heq
                  subst heq
                  obtain rfl := (Option.some_inj.mp ha).symm
                  exact le_of_eq (congrArg stateRank (leaveRoomFn_state s ws _ r room hb hlr)).symm
                · exact le_of_eq (congrArg stateRank (leaveRoomFn_state s ws c r r' hb ha)).symm
      | reconnect rc em =>
          by_cases ht : (truthyStr rc && truthyStr em) = false
          · simp only [step, handleMessage, reconnectOp, ht, if_true] at ha
            exact rank_le_same (lookup_inj hb ha)
          · rcases hlr : lookupRoom s.rooms (rc.getD "") with _ | room
            · simp only [step, handleMessage, reconnectOp, ht, if_false, hlr,
                Bool.false_eq_true, Bool.true_eq_false] at ha
              exact rank_le_same (lookup_inj hb ha)
            · by_cases hend : room.state = RoomState.ended
              · simp only [step, handleMessage, reconnectOp, ht, if_false, hlr, hend, if_true,
                  Bool.false_eq_true, Bool.true_eq_false] at ha
                exact rank_le_same (lookup_inj hb ha)
              · by_cases how : room.owner.email = em.getD ""
                · simp only [step, handleMessage, reconnectOp, ht, if_false, hlr, hend, how,
                    if_true, Bool.false_eq_true, Bool.true_eq_false] at ha
                  rw [lookupRoom_setRoom] at ha
                  split at ha
                  · rename_i heq
                    subst heq
                    obtain rfl := (Option.some_inj.mp ha).symm
                    obtain rfl := lookup_inj hb hlr
                    exact le_refl _
                  · exact rank_le_same (lookup_inj hb ha)
                · simp only [step, handleMessage, reconnectOp, ht, if_false, hlr, hend, how,
                    Bool.false_eq_true, Bool.true_eq_false] at ha
                  rw [lookupRoom_setRoom] at ha
                  split at ha
                  · rename_i heq
                    subst heq
                    obtain rfl := (Option.some_inj.mp ha).symm
                    obtain rfl := lookup_inj hb hlr
                    exact le_refl _
                  · exact rank_le_same (lookup_inj hb ha)
      | deleteRoomA rc =>
          by_cases ht : truthyStr rc = false
          · simp only [step, handleMessage, deleteRoomOp, ht, if_true] at ha
            exact rank_le_same (lookup_inj hb ha)
          · rcases hlr : lookupRoom s.rooms (rc.getD "") with _ | room
            · simp only [step, handleMessage, deleteRoomOp, ht, if_false, hlr,
                Bool.false_eq_true, Bool.true_eq_false] at ha
              exact rank_le_same (lookup_inj hb ha)
            · by_cases how : room.owner.ws = ws
              · simp only [step, handleMessage, deleteRoomOp, ht, if_false, hlr, how, ne_eq,
                  not_true_eq_false, Bool.false_eq_true, Bool.true_eq_false] at ha
                rw [lookupRoom_removeRoom] at ha
                split at ha
                · simp at ha
                · exact rank_le_same (lookup_inj hb ha)
              · simp only [step, handleMessage, deleteRoomOp, ht, if_false, hlr, how, ne_eq,
                  not_false_eq_true, if_true, Bool.false_eq_true, Bool.true_eq_false] at ha
                exact rank_le_same (lookup_inj hb ha)
      | leaveRoomA =>
          rcases htag : (s.tags ws).room with _ | rc
          · simp only [step, handleMessage, leaveRoomOp, htag] at ha
            exact rank_le_same (lookup_inj hb ha)
          · rcases hlr : lookupRoom s.rooms rc with _ | room
            · simp only [step, handleMessage, leaveRoomOp, htag, hlr] at ha
              exact rank_le_same (lookup_inj hb ha)
            · by_cases how : room.owner.ws = ws
              · simp only [step, handleMessage, leaveRoomOp, htag, hlr, how, if_true] at ha
                exact rank_le_same (lookup_inj hb ha)
              · simp only [step, handleMessage, leaveRoomOp, htag, hlr, how, if_false] at ha
                rw [lookupRoom_setRoom] at ha
                split at ha
                · rename_i heq
                  subst heq
                  obtain rfl := (Option.some_inj.mp ha).symm
                  obtain rfl := lookup_inj hb hlr
                  exact le_refl _
                · exact rank_le_same (lookup_inj hb ha)
      | finishQuiz rc em sc =>
          by_cases ht : (truthyStr rc && truthyStr em && sc.isSome) = false
          · simp only [step, handleMessage, finishQuizOp, ht, if_true] at ha
            exact rank_le_same (lookup_inj hb ha)
          · rcases hlr : lookupRoom s.rooms (rc.getD "") with _ | room
            · simp only [step, handleMessage, finishQuizOp, ht, if_false, hlr,
                Bool.false_eq_true, Bool.true_eq_false] at ha
              exact rank_le_same (lookup_inj hb ha)
            · simp only [step, handleMessage, finishQuizOp, ht, if_false, hlr,
                Bool.false_eq_true, Bool.true_eq_false] at ha
              rw [lookupRoom_setRoom] at ha
              split at ha
              · rename_i heq
                subst heq
                obtain rfl := (Option.some_inj.mp ha).symm
                obtain rfl := lookup_inj hb hlr
                exact le_refl _
              · exact rank_le_same (lookup_inj hb ha)
      | relayA b =>
          rcases htag : (s.tags ws).room with _ | rc
          · simp only [step, handleMessage, messageOp, htag] at ha
            exact rank_le_same (lookup_inj hb ha)
          · rcases hlr : lookupRoom s.rooms rc with _ | room
            · simp only [step, handleMessage, messageOp, htag, hlr] at ha
              exact rank_le_same (lookup_inj hb ha)
            · simp only [step, handleMessage, messageOp, htag, hlr] at ha
              exact rank_le_same (lookup_inj hb ha)
      | unknown n =>
          simp only [step, handleMessage] at ha
          exact rank_le_same (lookup_inj hb ha)

/-- Claim C1, witness.  A tick that expires the started fixture's timer takes
its state from `started` (rank 1) upward, to `ended`. -/
theorem c1_witness :
    stateRank roomStarted.state
      ≤ stateRank ({ roomStarted with state := RoomState.ended, timer := none } : Room).state :=
  c1_amended stateStarted (Event.tick "1234") "1234" roomStarted
    { roomStarted with state := RoomState.ended, timer := none }
    (by decide) (by decide) (by decide)

end QuizWS
